import Mathlib

/-!
Shallow embedding of the worship-service statistics pipeline
(`worship_journey.py`) and proofs about its normalization, matching and
aggregation components.

Conventions used throughout:
* Python strings are Lean `String`s; character-level work happens on
  `String.data : List Char`, and characters compare by code point,
  exactly as in Python.
* Python `None`-returning functions become `Option`-valued.
* Python dicts that are only used via exact key lookup and in-order
  iteration are association lists (`List (String × String)`) in the
  source's literal insertion order.
* A Python `collections.Counter` built by successive `update` calls is
  rendered by its final state: keys in first-occurrence order of the
  update stream, each paired with its total multiplicity.
* Regular-expression substitutions are implemented as specialized
  scanners for the concrete patterns of the source.  Python's `\s` and
  `\d` are modelled by their ASCII parts (the data contains no exotic
  whitespace or digits), and `str.lower` by ASCII lowercasing (the
  tables contain no cased non-ASCII letters).
-/

/-! ## Basic character and string helpers -/

/-- ASCII part of Python's whitespace class `\s` (and of `str.split` /
`str.strip` whitespace). -/
def isPyWs (c : Char) : Bool :=
  c = ' ' || c = '\t' || c = '\n' || c = '\r' || c.toNat = 11 || c.toNat = 12

def isAsciiDigit (c : Char) : Bool :=
  '0' ≤ c && c ≤ '9'

def isAsciiLetter (c : Char) : Bool :=
  ('a' ≤ c && c ≤ 'z') || ('A' ≤ c && c ≤ 'Z')

/-- Python `\w` word character, approximated: ASCII alphanumerics, the
underscore, and every non-ASCII character (true for the Han characters
appearing in the data; only used for `\b` boundaries next to the Latin
marker words, which never adjoin non-ASCII punctuation in the data). -/
def isWordChar (c : Char) : Bool :=
  isAsciiLetter c || isAsciiDigit c || c = '_' || 128 ≤ c.toNat

/-- ASCII lowercasing, Python `str.lower` on the data in play. -/
def lowerChar (c : Char) : Char := c.toLower

def lowerStr (s : String) : String := String.mk (s.data.map lowerChar)

/-- Python `str.lstrip()` on a character list. -/
def lstripChars (l : List Char) : List Char := l.dropWhile isPyWs

/-- Python `str.rstrip()` on a character list. -/
def rstripChars (l : List Char) : List Char :=
  (l.reverse.dropWhile isPyWs).reverse

/-- Python `str.strip()` on a character list. -/
def stripChars (l : List Char) : List Char := rstripChars (lstripChars l)

/-- Python `str.strip()`. -/
def pyStrip (s : String) : String := String.mk (stripChars s.data)

/-- Python `str.rstrip(chars)` for an explicit character set. -/
def rstripSet (set : List Char) (l : List Char) : List Char :=
  (l.reverse.dropWhile (fun c => set.contains c)).reverse

/-- Python `str.split()` (split on whitespace runs, no empty fragments). -/
def pySplitWsAux : List Char → List Char → List (List Char)
  | [], acc => if acc.isEmpty then [] else [acc.reverse]
  | c :: rest, acc =>
    if isPyWs c then
      if acc.isEmpty then pySplitWsAux rest [] else acc.reverse :: pySplitWsAux rest []
    else
      pySplitWsAux rest (c :: acc)

def pySplitWs (l : List Char) : List (List Char) := pySplitWsAux l []

/-- Python `' '.join(parts)`. -/
def joinSpace : List (List Char) → List Char
  | [] => []
  | [p] => p
  | p :: rest => p ++ ' ' :: joinSpace rest

/-- Python `pat in s` substring test on character lists. -/
def containsSub : List Char → List Char → Bool
  | _, [] => true
  | [], _ :: _ => false
  | hay@(_ :: t), pat => pat.isPrefixOf hay || containsSub t pat

/-- Code-point lexicographic order on character lists: Python's string
comparison. -/
def strLexLe : List Char → List Char → Bool
  | [], _ => true
  | _ :: _, [] => false
  | x :: xs, y :: ys =>
    if x.toNat < y.toNat then true
    else if y.toNat < x.toNat then false
    else strLexLe xs ys

/-- Python `a <= b` on strings (code-point order). -/
def pyStrLe (a b : String) : Bool := strLexLe a.data b.data

/-! ## Stable insertion sort

Python's `sorted` / `list.sort` / `Counter.most_common` /
`heapq.nlargest` are stable: elements comparing equal keep their
original relative order.  `sortBy le` is the stable sort for a total
preorder `le`, where `le x y = true` means `x` may be placed before
`y`; on ties the earlier element stays first. -/

def insertBy (le : α → α → Bool) (x : α) : List α → List α
  | [] => [x]
  | y :: ys => if le x y then x :: y :: ys else y :: insertBy le x ys

def sortBy (le : α → α → Bool) (l : List α) : List α :=
  l.foldr (insertBy le) []

/-! ## First-occurrence deduplication

Final state of a Python `set`/`dict` fed by successive insertions:
distinct elements, in order of first insertion. -/

def uniqAux (seen : List String) : List String → List String
  | [] => []
  | x :: xs => if x ∈ seen then uniqAux seen xs else x :: uniqAux (x :: seen) xs

def uniqFirst (l : List String) : List String := uniqAux [] l

/-- Occurrence count of `s` in `l` (a `Counter` entry's value). -/
def countOcc (l : List String) (s : String) : Nat :=
  (l.filter (fun x => x = s)).length

/-- Final state of `Counter(); c.update(l)`: keys in first-occurrence
order, each with its multiplicity. -/
def counterOf (l : List String) : List (String × Nat) :=
  (uniqFirst l).map (fun s => (s, countOcc l s))

/-- Python `Counter.most_common(n)`: stable sort by count descending,
truncated to `n`. -/
def mostCommon (n : Nat) (l : List String) : List (String × Nat) :=
  (sortBy (fun p q => q.2 ≤ p.2) (counterOf l)).take n

/-! ## Static tables (verbatim from the source, in literal order) -/

/-- Source table `SONG_NAME_MAPPINGS`: canonical mappings for song name
variants. -/
def SONG_NAME_MAPPINGS : List (String × String) := [
  ("房角石頭（Cornerstone）", "Cornerstone 房角基石"),
  ("Cornerstone", "Cornerstone 房角基石"),
  ("房角基石", "Cornerstone 房角基石"),
  ("唯獨在基督裡 (In Christ Alone)", "唯獨在基督裡"),
  ("奇異恩典 Amazing Grace (My Chains are Gone)", "奇異恩典（除掉困鎖）"),
  ("奇異恩典(除掉困鎖)", "奇異恩典（除掉困鎖）"),
  ("獻上頌讚", "獻上頌讚 (Shout To The Lord)"),
  ("獻上頌讚 Shout to The Lord", "獻上頌讚 (Shout To The Lord)"),
  ("獻上頌讚 Shout to the Lord", "獻上頌讚 (Shout To The Lord)"),
  ("Shout to The Lord 獻上頌讚", "獻上頌讚 (Shout To The Lord)"),
  ("King of Kings 萬代君主", "萬代君主"),
  ("憂傷痛悔的靈", "憂愁痛悔的靈"),
  ("願您平安", "願你平安"),
  ("海會分開（Ocean Will Part）", "Ocean Will Part"),
  ("海會分開", "Ocean Will Part"),
  ("世界最美的聲音 (奇異恩典)", "世界最美的聲音"),
  ("讓生命寛宏", "讓生命寬宏"),
  ("安靜 (Still)", "安靜 Still"),
  ("全因基督", "全因基督"),
  ("再次讓我更新", "再次將我更新"),
  ("耶和華以勒 (同心圓)", "耶和華以勒"),
  ("主禱文 (請教導我們禱告)", "主禱文（請教導我們禱告）"),
  ("至愛的回嚮", "至愛的迴響"),
  ("新的異象，新的方向", "新的異象 新的方向"),
  ("坐在寶坐上聖潔羔羊", "坐在寶座上聖潔羔羊"),
  ("神真正心意 (The heart of worship)", "神真正心意 (The Heart of Worship)"),
  ("每一天 (Day By Day)", "每一天"),
  ("Amazing Grace (My Chains Are Gone) 奇異恩典", "奇異恩典（除掉困鎖）")]

/-- Source table `PUBLISHER_MAPPINGS`: publisher consolidation, variant
to canonical name. -/
def PUBLISHER_MAPPINGS : List (String × String) := [
  ("Alan Yu", "余子麟"),
  ("林四", "余子麟"),
  ("Tsz-Lam Mak", "麥子霖"),
  ("Stream Of Praise Music", "Stream of Praise Music"),
  ("Stream of Praise", "Stream of Praise Music"),
  ("Steam of Praise", "Stream of Praise Music"),
  ("Stream of Praise Musice", "Stream of Praise Music"),
  ("香港基督徒音樂協會", "香港基督徒音樂事工協會"),
  ("香港基督徒音事工協會", "香港基督徒音樂事工協會"),
  ("香港基督徒音樂事工協會(HKACM)", "香港基督徒音樂事工協會"),
  ("鹹蛋⾳樂事⼯", "鹹蛋音樂事工"),
  ("鹹蛋音樂事", "鹹蛋音樂事工"),
  ("©️Milk&Honey Worship", "Milk & Honey Worship"),
  ("Milk&Honey Worship", "Milk & Honey Worship"),
  ("角聲佈道團", "角聲使團"),
  ("One Circle Limited", "One Circle Ltd"),
  ("同心圓敬拜福音平台", "One Circle Ltd"),
  ("Flow Music, Flow Church", "Flow Church"),
  ("Flow Music", "Flow Church"),
  ("Gsus Music Ministry", "Gsus Music Ministry Ltd"),
  ("周敏曦", "Esther Chow"),
  ("AFC", "AFC Vancouver"),
  ("加拿大基督使者協會", "AFC Vancouver"),
  ("Ruth Chen Music", "曾路得"),
  ("Ruth Chen", "曾路得"),
  ("Worship Nations / 玻璃海樂團", "Worship Nations"),
  ("Worship Nations X 玻璃海樂團", "Worship Nations"),
  ("Worship Nation", "Worship Nations"),
  ("© 2019 Worship Nations", "Worship Nations"),
  ("玻璃海樂團", "Worship Nations"),
  ("頌恩旋律", "Grace Melodia"),
  ("Kyrios Culture Association", "Grace Melodia"),
  ("Cantonhymn", "CantonHymn"),
  ("Public Domain, Son Music Worship Ministry", "Son Music")]

/-- Source table `STATIC_SONG_COPYRIGHT_MAPPINGS`: static song to
copyright-owner overrides. -/
def STATIC_SONG_COPYRIGHT_MAPPINGS : List (String × String) := [
  ("小小的雙手", "玻璃海樂團"),
  ("是為祢預備", "Milk & Honey Worship"),
  ("仍然敬拜", "Flow Church"),
  ("最美好的仗", "香港基督徒音樂事工協會"),
  ("主超過我在面對的紅海", "RedSea Music"),
  ("讚頌未停", "頌恩旋律"),
  ("坐在寶座上聖潔羔羊", "Stream of Praise Music"),
  ("我屬祢", "鹹蛋音樂事工"),
  ("到那日", "Gsus Music Ministry Ltd"),
  ("天父...", "Esther Chow"),
  ("天父⋯", "Esther Chow"),
  ("Great Is Thy Faithfulness 主恩何信實", "香港基督徒音樂事工協會"),
  ("遇於祢", "Worship Nations"),
  ("連於祢", "Worship Nations"),
  ("賜我自由", "Stream of Praise Music"),
  ("𧶽我自由", "Stream of Praise Music"),
  ("垂絲柳樹下", "Worship Nations")]

/-- Source set `SONGS_WITHOUT_PUBLISHER`: songs forced to have no
publisher. -/
def SONGS_WITHOUT_PUBLISHER : List String := [
  "Christmas2025（信眾齊到主前, 祢是彌賽亞, 祢配得, 君尊義僕, 好信息, 神同在, 榮美屬祢）"]

/-! ## `normalize_for_comparison` -/

/-- Pronoun-variant folding shared by `normalize_for_comparison` and
`clean_song_name`: the two variant code points map to 祢. -/
def foldPronoun (c : Char) : Char :=
  if c = '你' then '祢' else if c = '袮' then '祢' else c

/-- Full-width to half-width punctuation folding shared by
`normalize_for_comparison` and `clean_song_name`. -/
def foldPunct (c : Char) : Char :=
  if c = '（' then '(' else if c = '）' then ')'
  else if c = '，' then ',' else if c = '。' then '.'
  else if c = '：' then ':' else if c = '！' then '!'
  else if c = '？' then '?' else c

/-- Source function `normalize_for_comparison`: pronoun folding,
punctuation folding, removal of all whitespace, lowercasing.  Produces
the Comparison Key used for all fuzzy equality tests. -/
def normalize_for_comparison (s : String) : String :=
  if s = "" then ""
  else
    String.mk
      ((((s.data.map foldPronoun).map foldPunct).filter
        (fun c => !(isPyWs c))).map lowerChar)

/-! ## Publisher consolidation and copyright matching -/

/-- Source function `consolidate_publisher_name`: exact lookup in
`PUBLISHER_MAPPINGS`, identity otherwise. -/
def consolidate_publisher_name (publisher : String) : String :=
  match PUBLISHER_MAPPINGS.find? (fun p => p.1 = publisher) with
  | some p => p.2
  | none => publisher

/-- Strategy 0 of the source (static mappings): first static entry
whose key's Comparison Key equals the song's. -/
def staticTier (ns : String) : Option String :=
  (STATIC_SONG_COPYRIGHT_MAPPINGS.find?
      (fun p => normalize_for_comparison p.1 = ns)).map
    (fun p => consolidate_publisher_name p.2)

/-- Strategy 1 of the source: first metadata entry with an equal
Comparison Key. -/
def exactTier (ns : String) (md : List (String × String)) : Option String :=
  (md.find? (fun p => ns = normalize_for_comparison p.1)).map
    (fun p => consolidate_publisher_name p.2)

/-- Strategy 2 of the source: first metadata entry whose (nonempty)
Comparison Key is a substring of the song's. -/
def subTier (ns : String) (md : List (String × String)) : Option String :=
  (md.find? (fun p =>
      let nm := (normalize_for_comparison p.1).data
      !nm.isEmpty && containsSub ns.data nm)).map
    (fun p => consolidate_publisher_name p.2)

/-- Strategy 3 of the source: first metadata entry whose Comparison Key
contains the (nonempty) song key as a substring. -/
def revSubTier (ns : String) (md : List (String × String)) : Option String :=
  (md.find? (fun p =>
      let nm := (normalize_for_comparison p.1).data
      !ns.data.isEmpty && containsSub nm ns.data)).map
    (fun p => consolidate_publisher_name p.2)

/-- Strategy 4 of the source: for each alias-table entry whose canonical
form matches the song, substring-match the raw variant against the
metadata (either direction), first hit over the nested loops wins. -/
def aliasTier (ns : String) (md : List (String × String)) : Option String :=
  (SONG_NAME_MAPPINGS.filter
      (fun m => normalize_for_comparison m.2 = ns)).findSome?
    (fun m =>
      (md.find? (fun p =>
          let nm := (normalize_for_comparison p.1).data
          let nv := (normalize_for_comparison m.1).data
          containsSub nv nm || containsSub nm nv)).map
        (fun p => consolidate_publisher_name p.2))

/-- Source function `map_song_to_copyright`.  Tiers in source order:
empty metadata short-circuits to `none`; then the exclusion set, the
static override table (Strategy 0), and Strategies 1 through 4, first
hit winning. -/
def map_song_to_copyright (song_name : String)
    (copyright_metadata : List (String × String)) : Option String :=
  if copyright_metadata = [] then none
  else
    let ns := normalize_for_comparison song_name
    if SONGS_WITHOUT_PUBLISHER.any
        (fun ex => normalize_for_comparison ex = ns) then none
    else match staticTier ns with
    | some r => some r
    | none =>
    match exactTier ns copyright_metadata with
    | some r => some r
    | none =>
    match subTier ns copyright_metadata with
    | some r => some r
    | none =>
    match revSubTier ns copyright_metadata with
    | some r => some r
    | none => aliasTier ns copyright_metadata

/-! ## Regex scanners for `clean_song_name` / `split_combined_songs`

Each Python `re` pattern of the source is implemented as a specialized
scanner.  `\s`/`\d` are the ASCII classes above; scanning is leftmost
with the greedy semantics the patterns force (whitespace runs are
maximal because each run is followed by a mandatory non-whitespace
character of the pattern). -/

/-- Case-insensitive ASCII prefix match of a lowercase pattern; returns
the remainder. -/
def matchCI : List Char → List Char → Option (List Char)
  | [], l => some l
  | _ :: _, [] => none
  | p :: ps, c :: cs => if lowerChar c = p then matchCI ps cs else none

/-- Pattern `\s+by\s+[A-Za-z\s]+$` (IGNORECASE) anchored at the current
position and reaching the end of the string: a whitespace run, the word
`by`, then at least one whitespace and at least one character, all of
them Latin letters or whitespace, up to the end. -/
def byMatchHere (l : List Char) : Bool :=
  let w := l.takeWhile isPyWs
  if w.isEmpty then false
  else
    match l.drop w.length with
    | b :: y :: rest =>
      lowerChar b = 'b' && lowerChar y = 'y' &&
      (match rest with
       | c :: d :: ds =>
         isPyWs c && (d :: ds).all (fun e => isPyWs e || isAsciiLetter e)
       | _ => false)
    | _ => false

/-- Source line `re.sub(r'\s+by\s+[A-Za-z\s]+$', '', song, IGNORECASE)`:
truncate at the leftmost position from which the attribution pattern
reaches the end. -/
def stripByAttr : List Char → List Char
  | [] => []
  | c :: rest => if byMatchHere (c :: rest) then [] else c :: stripByAttr rest

/-- Generic replace-all scanner: `m prev l` attempts a match at the
current position (`prev` is the character just before it, for `\b`
checks) and returns the last consumed character and the remainder.
Fuel is the string length; every match consumes at least one
character. -/
def scanRemoveAux (m : Option Char → List Char → Option (Char × List Char)) :
    Nat → Option Char → List Char → List Char
  | 0, _, l => l
  | _ + 1, _, [] => []
  | fuel + 1, prev, c :: rest =>
    match m prev (c :: rest) with
    | some (lastc, r) => scanRemoveAux m fuel (some lastc) r
    | none => c :: scanRemoveAux m fuel (some c) rest

def scanRemove (m : Option Char → List Char → Option (Char × List Char))
    (l : List Char) : List Char :=
  scanRemoveAux m (l.length + 1) none l

/-- Word-boundary test before a word character, given the preceding
character (`none` at the start of the string). -/
def boundaryBefore (prev : Option Char) : Bool :=
  match prev with
  | none => true
  | some p => !(isWordChar p)

/-- Pattern `\s*\bMedl?ey\b\s*` (IGNORECASE): the greedy optional `l`
tries `medley` before `medey`; both word boundaries are checked. -/
def medleyMatch (prev : Option Char) (l : List Char) : Option (Char × List Char) :=
  let w := l.takeWhile isPyWs
  let r := l.drop w.length
  let okBefore := if w.isEmpty then boundaryBefore prev else true
  if !okBefore then none
  else
    let finish (word : List Char) (r2 : List Char) : Option (Char × List Char) :=
      match r2 with
      | [] => some ((r.take word.length).getLastD 'y', [])
      | c :: _ =>
        if isWordChar c then none
        else
          let ws2 := r2.takeWhile isPyWs
          let lastc := if ws2.isEmpty then (r.take word.length).getLastD 'y'
                       else ws2.getLastD ' '
          some (lastc, r2.drop ws2.length)
    match matchCI "medley".data r with
    | some r2 =>
      match finish "medley".data r2 with
      | some res => some res
      | none =>
        match matchCI "medey".data r with
        | some r3 => finish "medey".data r3
        | none => none
    | none =>
      match matchCI "medey".data r with
      | some r3 => finish "medey".data r3
      | none => none

/-- Pattern `\s*\bChorus\s+Only\b\s*` (IGNORECASE). -/
def chorusOnlyMatch (prev : Option Char) (l : List Char) : Option (Char × List Char) :=
  let w := l.takeWhile isPyWs
  let r := l.drop w.length
  let okBefore := if w.isEmpty then boundaryBefore prev else true
  if !okBefore then none
  else
    match matchCI "chorus".data r with
    | none => none
    | some r1 =>
      let ws1 := r1.takeWhile isPyWs
      if ws1.isEmpty then none
      else
        let r2 := r1.drop ws1.length
        match matchCI "only".data r2 with
        | none => none
        | some r3 =>
          match r3 with
          | [] => some ((r2.take 4).getLastD 'y', [])
          | c :: _ =>
            if isWordChar c then none
            else
              let ws3 := r3.takeWhile isPyWs
              let lastc := if ws3.isEmpty then (r2.take 4).getLastD 'y'
                           else ws3.getLastD ' '
              some (lastc, r3.drop ws3.length)

/-- Patterns `\s*\(Canto\)\s*` and `\s*\(Mando\)\s*` (IGNORECASE): a
parenthesized literal word, surrounding whitespace consumed. -/
def parenWordMatch (word : List Char) (_prev : Option Char) (l : List Char) :
    Option (Char × List Char) :=
  let w := l.takeWhile isPyWs
  let r := l.drop w.length
  match r with
  | '(' :: r1 =>
    match matchCI word r1 with
    | some (')' :: r2) =>
      let ws2 := r2.takeWhile isPyWs
      let lastc := if ws2.isEmpty then ')' else ws2.getLastD ' '
      some (lastc, r2.drop ws2.length)
    | _ => none
  | _ => none

/-- Pattern `\s*\(skip\s+verse\)\s*` (IGNORECASE). -/
def skipVerseMatch (_prev : Option Char) (l : List Char) : Option (Char × List Char) :=
  let w := l.takeWhile isPyWs
  let r := l.drop w.length
  match r with
  | '(' :: r1 =>
    match matchCI "skip".data r1 with
    | none => none
    | some r2 =>
      let ws2 := r2.takeWhile isPyWs
      if ws2.isEmpty then none
      else
        match matchCI "verse".data (r2.drop ws2.length) with
        | some (')' :: r3) =>
          let ws3 := r3.takeWhile isPyWs
          let lastc := if ws3.isEmpty then ')' else ws3.getLastD ' '
          some (lastc, r3.drop ws3.length)
        | _ => none
  | _ => none

/-- One reversed marker group `digits+ kind ws+`, i.e. a trailing
`\s+K<digits>` of the original string for `K` among `kinds`
(uppercase, the source patterns have no IGNORECASE here). -/
def stripRevOnce (kinds : List Char) (rl : List Char) : Option (List Char) :=
  let ds := rl.takeWhile isAsciiDigit
  if ds.isEmpty then none
  else
    match rl.drop ds.length with
    | k :: rest =>
      if kinds.contains k then
        let wsr := rest.takeWhile isPyWs
        if wsr.isEmpty then none else some (rest.drop wsr.length)
      else none
    | [] => none

def stripGroupsAux (kinds : List Char) : Nat → List Char → List Char
  | 0, rl => rl
  | fuel + 1, rl =>
    match stripRevOnce kinds rl with
    | some r => stripGroupsAux kinds fuel r
    | none => rl

/-- Pattern `\s+K\d+(\s+K\d+)*\s*$` for marker kinds `K`: remove the
longest trailing chain of marker tokens (with its leading whitespace
and any trailing whitespace); no match leaves the string untouched. -/
def stripTrailingMarkers (kinds : List Char) (l : List Char) : List Char :=
  let rl := l.reverse
  let r0 := rl.dropWhile isPyWs
  if (stripRevOnce kinds r0).isSome then
    (stripGroupsAux kinds r0.length r0).reverse
  else l

/-- Pattern `\s+B\s*$`: a trailing lone `B` token. -/
def stripTrailingB (l : List Char) : List Char :=
  let rl := l.reverse
  let r0 := rl.dropWhile isPyWs
  match r0 with
  | 'B' :: rest =>
    let wsr := rest.takeWhile isPyWs
    if wsr.isEmpty then l else (rest.drop wsr.length).reverse
  | _ => l

/-- One `[VC]\d+` token. -/
def isVCTok (tok : List Char) : Bool :=
  match tok with
  | k :: rest => (k = 'V' || k = 'C') && !rest.isEmpty && rest.all isAsciiDigit
  | [] => false

/-- Pattern `^[VC]\d+(\s+[VC]\d+)*$`: the fragment consists purely of
verse/chorus marker tokens. -/
def isPureVC (l : List Char) : Bool :=
  let toks := pySplitWs l
  !toks.isEmpty && toks.all isVCTok

/-- Replace every non-overlapping occurrence of `pat` (nonempty) by
`rep`, scanning left to right: Python `str.replace`. -/
def replaceSeqAux (pat rep : List Char) : Nat → List Char → List Char
  | 0, l => l
  | _ + 1, [] => []
  | fuel + 1, c :: rest =>
    if pat.isPrefixOf (c :: rest) then
      rep ++ replaceSeqAux pat rep fuel ((c :: rest).drop pat.length)
    else c :: replaceSeqAux pat rep fuel rest

def replaceSeq (pat rep l : List Char) : List Char :=
  replaceSeqAux pat rep (l.length + 1) l

/-! ## `clean_song_name` -/

/-- Apostrophe character, built by code to keep string literals plain. -/
def aposChar : Char := Char.ofNat 39

/-- Pattern string of the source's quote-normalization line: through
Python's triple-quote parsing, `song.replace(CHUNK, APOS)` where
`CHUNK` is the literal sequence below; the preceding line replaces a
straight double quote by itself (identity).  Neither ever fires on a
song name. -/
def quoteJunkPat : List Char :=
  [',', ' ', '"', aposChar, '"', ')', '.', 'r', 'e', 'p', 'l', 'a', 'c', 'e', '(']

/-- Source function `clean_song_name`: pronoun folding, punctuation
folding, attribution/medley/annotation stripping, trailing marker
stripping, whitespace and punctuation normalization, non-song marker
filtering, and the final `SONG_NAME_MAPPINGS` lookup.  `none` models
Python's `None`. -/
def clean_song_name (song : String) : Option String :=
  if song = "" then none
  else
    let cs := (song.data.map foldPronoun).map foldPunct
    let cs := stripByAttr cs
    let cs := scanRemove medleyMatch cs
    let cs := scanRemove chorusOnlyMatch cs
    let cs := scanRemove (parenWordMatch "canto".data) cs
    let cs := scanRemove (parenWordMatch "mando".data) cs
    let cs := scanRemove skipVerseMatch cs
    let cs := stripTrailingMarkers ['C', 'V'] cs
    let cs := joinSpace (pySplitWs cs)
    let cs := rstripSet [',', '.', ';', ':'] cs
    let cs := replaceSeq quoteJunkPat [aposChar] cs
    let song := String.mk (stripChars cs)
    if lowerStr song = "communion" || lowerStr song = "holy communion" ||
        lowerStr song = "baptism" then none
    else if song = "" then none
    else
      match SONG_NAME_MAPPINGS.find? (fun p => p.1 = song) with
      | some p => some p.2
      | none => some song

/-! ## `split_combined_songs` -/

/-- Match of `\s*\+\s*Communion\s*` at the current position (the
source's Communion-marker removal; case-sensitive). -/
def communionMatch (_prev : Option Char) (l : List Char) : Option (Char × List Char) :=
  let w := l.takeWhile isPyWs
  match l.drop w.length with
  | '+' :: r1 =>
    let ws1 := r1.takeWhile isPyWs
    let r1b := r1.drop ws1.length
    if "Communion".data.isPrefixOf r1b then
      let r2 := r1b.drop 9
      let ws2 := r2.takeWhile isPyWs
      let lastc := if ws2.isEmpty then 'n' else ws2.getLastD ' '
      some (lastc, r2.drop ws2.length)
    else none
  | _ => none

/-- Splitter for `re.split(r'\s*\+\s*|\s*/\s*', text)`: fragments are
cut at each `+`/`/`, with the whitespace run on either side of the
delimiter consumed by the match (empty fragments are produced when
delimiters are adjacent or at the ends, as in Python). -/
def splitDelimsAux : Nat → List Char → List Char → List (List Char)
  | _, [], buf => [rstripChars buf.reverse]
  | 0, _, buf => [rstripChars buf.reverse]
  | fuel + 1, c :: rest, buf =>
    if c = '+' || c = '/' then
      rstripChars buf.reverse :: splitDelimsAux fuel (rest.dropWhile isPyWs) []
    else
      splitDelimsAux fuel rest (c :: buf)

def splitDelims (l : List Char) : List (List Char) :=
  splitDelimsAux l.length l []

/-- Source function `split_combined_songs`: remove `+ Communion`
markers, split on `+`/`/`, drop fragments that are purely verse/chorus
markers, strip trailing `V<n>` runs, `C<n>` runs and a lone trailing
`B`, and keep the nonempty remainders in order. -/
def split_combined_songs (song_text : String) : List String :=
  if song_text = "" then []
  else
    let cs := scanRemove communionMatch song_text.data
    let parts := splitDelims cs
    (parts.filterMap (fun part0 =>
      let part := stripChars part0
      if isPureVC part then none
      else
        let part := stripTrailingMarkers ['V'] part
        let part := stripTrailingMarkers ['C'] part
        let part := stripTrailingB part
        if part.isEmpty then none else some (String.mk part)))

/-! ## `consolidate_multiline_rows` -/

/-- Source padding loop `while len(row) < 17: row.append('')`. -/
def padTo17 (row : List String) : List String :=
  row ++ List.replicate (17 - row.length) ""

/-- One iteration of the continuation-merge loop body at column `i`: a
continuation cell that is non-blank after stripping is appended to
`current_row[i]` with a single separating space when that cell is
non-empty, else becomes its value.  The source first reads
`current_row[i]`; at an index the current record lacks that read
raises an uncaught `IndexError`, modelled as `none`. -/
def mergeStep (cont : List String) (acc : Option (List String)) (i : Nat) :
    Option (List String) :=
  match acc with
  | none => none
  | some row =>
    match cont[i]? with
    | none => some row
    | some cell =>
      if pyStrip cell ≠ "" then
        match row[i]? with
        | none => none
        | some cv =>
          some (row.set i
            (if cv ≠ "" then cv ++ " " ++ pyStrip cell else pyStrip cell))
      else some row

/-- Source continuation merge `for i in range(1, len(row))` over the
continuation row's column indices (`List.range' 1 (cont.length - 1)`
is Python's `range(1, len(row))`), mutating the current record in
place; `none` models the uncaught `IndexError` raised at the first
non-blank continuation cell whose index the current record lacks. -/
def mergeCont (cur cont : List String) : Option (List String) :=
  (List.range' 1 (cont.length - 1)).foldl (mergeStep cont) (some cur)

/-- Source function `consolidate_multiline_rows`: rows are padded to 17
columns; a row with a non-blank first column starts a new record
(emitting the previous one); a row with a blank first column is merged
into the current record (or discarded when none exists yet); the final
in-progress record is flushed at the end of the input.  A failing merge
(uncaught `IndexError` in the source) aborts the whole computation:
`none`. -/
def consolidateAux : Option (List String) → List (List String) →
    Option (List (List String))
  | cur, [] =>
    some (match cur with
      | some c => [c]
      | none => [])
  | cur, row :: rest =>
    let row := padTo17 row
    if pyStrip (row.getD 0 "") ≠ "" then
      match cur with
      | some c => (consolidateAux (some row) rest).map (fun out => c :: out)
      | none => consolidateAux (some row) rest
    else
      match cur with
      | some c =>
        match mergeCont c row with
        | none => none
        | some merged => consolidateAux (some merged) rest
      | none => consolidateAux none rest

def consolidate_multiline_rows (rows : List (List String)) :
    Option (List (List String)) :=
  consolidateAux none rows

/-! ## Service records and the statistics engine -/

/-- A `ServiceRecord` as built by `load_csv_data`: the fields the
statistics functions consult (`date`/`month`/`weekday`/`theme` play no
role in the properties below and are omitted). -/
structure Service where
  year : Nat
  praise_leader : String
  praise1 : List String
  praise2 : List String
  peace : List String
deriving DecidableEq, Repr

/-- The record's `all_songs` field: `praise1 + praise2 + peace`. -/
def Service.all_songs (s : Service) : List String :=
  s.praise1 ++ s.praise2 ++ s.peace

/-- The record's praise-only songs `praise1 + praise2` (the slot list
used for multi-leader analysis and publisher aggregation). -/
def Service.praiseSongs (s : Service) : List String :=
  s.praise1 ++ s.praise2

/-- Source filter `[s for s in services if s['year'] == year]`. -/
def yearServices (services : List Service) (year : Nat) : List Service :=
  services.filter (fun s => s.year = year)

/-- Services of one leader in the report year, in input order (the
per-leader bucket of the `defaultdict(list)` grouping). -/
def leaderServices (services : List Service) (year : Nat) (leader : String) :
    List Service :=
  (yearServices services year).filter (fun s => s.praise_leader = leader)

/-- Concatenated update stream of a per-leader category counter: the
category lists of the leader's services in order. -/
def leaderStream (f : Service → List String) (services : List Service)
    (year : Nat) (leader : String) : List String :=
  (leaderServices services year leader).foldl (fun acc svc => acc ++ f svc) []

/-- Per-leader Top-20 of one category, as the source computes it:
`[(song, count) for song, count in counter.most_common(20) if count > 1]`. -/
def leaderTop20 (f : Service → List String) (services : List Service)
    (year : Nat) (leader : String) : List (String × Nat) :=
  (mostCommon 20 (leaderStream f services year leader)).filter (fun p => 1 < p.2)

/-- Per-leader `new_songs_2025`: the distinct songs of the leader's
report-year services whose Comparison Key is not in the historical
baseline, sorted (Python `sorted`, code-point ascending). -/
def new_songs_2025 (services : List Service) (historical : List String)
    (year : Nat) (leader : String) : List String :=
  sortBy pyStrLe
    ((uniqFirst (leaderStream Service.all_songs services year leader)).filter
      (fun song => !(historical.contains (normalize_for_comparison song))))

/-- Concatenated update stream of a global category counter. -/
def globalStream (f : Service → List String) (services : List Service)
    (year : Nat) : List String :=
  (yearServices services year).foldl (fun acc svc => acc ++ f svc) []

/-- Global Top-20 of one category: `counter.most_common(20)`, no
count-threshold filter. -/
def globalTop20 (f : Service → List String) (services : List Service)
    (year : Nat) : List (String × Nat) :=
  mostCommon 20 (globalStream f services year)

/-- Stream of `(song, leader)` pairs feeding `song_to_leaders` (praise1
and praise2 slots only), in service order. -/
def mlStream (services : List Service) (year : Nat) : List (String × String) :=
  (yearServices services year).foldl
    (fun acc svc => acc ++ (svc.praiseSongs).map (fun song => (song, svc.praise_leader)))
    []

/-- The `song_to_leaders[song]` set: distinct leaders who chose the
song in a praise1/praise2 slot, in first-insertion order. -/
def songLeaders (services : List Service) (year : Nat) (song : String) :
    List String :=
  uniqFirst (((mlStream services year).filter (fun p => p.1 = song)).map (fun p => p.2))

/-- One entry of the multi-leader list: `(song, len(leaders),
sorted(leaders), count)`. -/
structure MLEntry where
  song : String
  leaderCount : Nat
  leaders : List String
  count : Nat
deriving DecidableEq, Repr

/-- The `multi_leader_songs` list before sorting: songs with at least 3
distinct leaders, in `song_to_leaders` key order. -/
def multiLeaderSongs (services : List Service) (year : Nat) : List MLEntry :=
  ((uniqFirst ((mlStream services year).map (fun p => p.1))).filter
    (fun song => 3 ≤ (songLeaders services year song).length)).map
    (fun song =>
      { song := song
        leaderCount := (songLeaders services year song).length
        leaders := sortBy pyStrLe (songLeaders services year song)
        count := countOcc (globalStream Service.praiseSongs services year) song })

/-- Sort comparator of `multi_leader_songs.sort(key=(x[1], x[3]),
reverse=True)`: `a` may precede `b` iff `a`'s (leader count, occurrence
count) is lexicographically at least `b`'s. -/
def mlLe (a b : MLEntry) : Bool :=
  if b.leaderCount < a.leaderCount then true
  else if a.leaderCount < b.leaderCount then false
  else b.count ≤ a.count

/-- `top10_multi_leader`: the sorted multi-leader list truncated to 10. -/
def top10_multi_leader (services : List Service) (year : Nat) : List MLEntry :=
  (sortBy mlLe (multiLeaderSongs services year)).take 10

/-! ## Concrete fixtures used by the claim theorems -/

/-- Alias-table keys on which the cleaning pipeline rewrites the key
before the table lookup (full-width punctuation folding, pronoun
folding, or a value that is itself rewritten), so alias closure fails. -/
def aliasClosureExceptions : List String :=
  ["房角石頭（Cornerstone）", "願您平安", "海會分開（Ocean Will Part）",
   "主禱文 (請教導我們禱告)", "新的異象，新的方向"]

/-- Alias-table values that the cleaning pipeline itself rewrites
(pronoun folding, full-width punctuation folding), so cleaning does not
fix them. -/
def idempotenceExceptions : List String :=
  ["願你平安", "主禱文（請教導我們禱告）"]

/-- Songs used by the Claim C4 counterexample: twenty filler songs that
each occur three times. -/
def manySongs : List String :=
  ["s01", "s02", "s03", "s04", "s05", "s06", "s07", "s08", "s09", "s10",
   "s11", "s12", "s13", "s14", "s15", "s16", "s17", "s18", "s19", "s20"]

/-- Service of the Claim C4 counterexample: one 2025 service whose
praise1 slots hold twenty songs three times each plus the song `t`
twice. -/
def c4cxSvc : Service :=
  { year := 2025, praise_leader := "L",
    praise1 := (manySongs.flatMap (fun s => [s, s, s])) ++ ["t", "t"],
    praise2 := [], peace := [] }

/-- Services of the Claim C5 witness: the song `Y` is chosen by
leaders `A`, `B` and `C`, the song `X` only by `A` and `B`. -/
def c5Services : List Service :=
  [{ year := 2025, praise_leader := "A", praise1 := ["Y", "X"],
     praise2 := [], peace := [] },
   { year := 2025, praise_leader := "B", praise1 := ["Y", "X"],
     praise2 := [], peace := [] },
   { year := 2025, praise_leader := "C", praise1 := ["Y"],
     praise2 := [], peace := [] }]

/-! ## Generic lemmas about the sorting / dedup / counter helpers -/

theorem insertBy_perm (le : α → α → Bool) (x : α) (l : List α) :
    List.Perm (insertBy le x l) (x :: l) := by
  induction l with
  | nil => simp [insertBy]
  | cons y ys ih =>
    by_cases h : le x y = true
    · simp [insertBy, h]
    · simp only [insertBy, h]
      simp only [Bool.false_eq_true, if_false]
      exact List.Perm.trans (List.Perm.cons y ih) (List.Perm.swap x y ys)

theorem sortBy_perm (le : α → α → Bool) (l : List α) :
    List.Perm (sortBy le l) l := by
  induction l with
  | nil => simp [sortBy]
  | cons x xs ih =>
    exact List.Perm.trans (insertBy_perm le x (sortBy le xs)) (List.Perm.cons x ih)

theorem mem_sortBy (le : α → α → Bool) (l : List α) (a : α) :
    a ∈ sortBy le l ↔ a ∈ l :=
  (sortBy_perm le l).mem_iff

theorem length_sortBy (le : α → α → Bool) (l : List α) :
    (sortBy le l).length = l.length :=
  (sortBy_perm le l).length_eq

theorem pairwise_insertBy (le : α → α → Bool)
    (total : ∀ a b, le a b = true ∨ le b a = true)
    (htrans : ∀ a b c, le a b = true → le b c = true → le a c = true)
    (x : α) (l : List α) (hl : List.Pairwise (fun a b => le a b = true) l) :
    List.Pairwise (fun a b => le a b = true) (insertBy le x l) := by
  induction l with
  | nil => simp [insertBy]
  | cons y ys ih =>
    rcases List.pairwise_cons.mp hl with ⟨hy, hys⟩
    by_cases h : le x y = true
    · simp only [insertBy, h, if_true]
      refine List.pairwise_cons.mpr ⟨?_, hl⟩
      intro b hb
      rcases List.mem_cons.mp hb with rfl | hb
      · exact h
      · exact htrans x y b h (hy b hb)
    · simp only [insertBy, h]
      simp only [Bool.false_eq_true, if_false]
      refine List.pairwise_cons.mpr ⟨?_, ih hys⟩
      intro b hb
      rcases List.mem_cons.mp ((insertBy_perm le x ys).mem_iff.mp hb) with rfl | hb
      · rcases total b y with hxy | hyx
        · exact absurd hxy h
        · exact hyx
      · exact hy b hb

theorem pairwise_sortBy (le : α → α → Bool)
    (total : ∀ a b, le a b = true ∨ le b a = true)
    (htrans : ∀ a b c, le a b = true → le b c = true → le a c = true)
    (l : List α) :
    List.Pairwise (fun a b => le a b = true) (sortBy le l) := by
  induction l with
  | nil => simp [sortBy]
  | cons x xs ih => exact pairwise_insertBy le total htrans x (sortBy le xs) ih

theorem mem_uniqAux (l : List String) :
    ∀ (seen : List String) (a : String),
      a ∈ uniqAux seen l ↔ a ∈ l ∧ a ∉ seen := by
  induction l with
  | nil => intro seen a; simp [uniqAux]
  | cons x xs ih =>
    intro seen a
    by_cases hx : x ∈ seen
    · simp only [uniqAux, if_pos hx]
      rw [ih]
      constructor
      · rintro ⟨ha, hs⟩; exact ⟨List.mem_cons_of_mem x ha, hs⟩
      · rintro ⟨ha, hs⟩
        rcases List.mem_cons.mp ha with rfl | ha
        · exact absurd hx hs
        · exact ⟨ha, hs⟩
    · simp only [uniqAux, if_neg hx]
      constructor
      · intro h
        rcases List.mem_cons.mp h with rfl | h
        · exact ⟨List.mem_cons_self a xs, hx⟩
        · rcases (ih (x :: seen) a).mp h with ⟨ha, hs⟩
          exact ⟨List.mem_cons_of_mem x ha,
            fun hmem => hs (List.mem_cons_of_mem x hmem)⟩
      · rintro ⟨ha, hs⟩
        rcases List.mem_cons.mp ha with rfl | ha
        · exact List.mem_cons_self a _
        · by_cases hax : a = x
          · subst hax; exact List.mem_cons_self a _
          · exact List.mem_cons_of_mem x
              ((ih (x :: seen) a).mpr
                ⟨ha, fun hmem => by
                  rcases List.mem_cons.mp hmem with h | h
                  · exact hax h
                  · exact hs h⟩)

theorem mem_uniqFirst (l : List String) (a : String) :
    a ∈ uniqFirst l ↔ a ∈ l := by
  rw [uniqFirst, mem_uniqAux]
  simp

theorem nodup_uniqAux (l : List String) :
    ∀ seen : List String, (uniqAux seen l).Nodup := by
  induction l with
  | nil => intro seen; simp [uniqAux]
  | cons x xs ih =>
    intro seen
    by_cases hx : x ∈ seen
    · simpa [uniqAux, if_pos hx] using ih seen
    · simp only [uniqAux, if_neg hx]
      refine List.nodup_cons.mpr ⟨?_, ih (x :: seen)⟩
      intro hmem
      exact ((mem_uniqAux xs (x :: seen) x).mp hmem).2 (List.mem_cons_self x seen)

theorem nodup_uniqFirst (l : List String) : (uniqFirst l).Nodup :=
  nodup_uniqAux l []

theorem counterOf_count (l : List String) (p : String × Nat)
    (hp : p ∈ counterOf l) : p.2 = countOcc l p.1 ∧ p.1 ∈ l := by
  rcases List.mem_map.mp hp with ⟨s, hs, rfl⟩
  exact ⟨rfl, (mem_uniqFirst l s).mp hs⟩

theorem countOcc_pos (l : List String) (s : String) (hs : s ∈ l) :
    0 < countOcc l s := by
  rw [countOcc, List.length_pos]
  intro hnil
  have : s ∈ List.filter (fun x => x = s) l := by
    rw [List.mem_filter]
    exact ⟨hs, by simp⟩
  rw [hnil] at this
  exact List.not_mem_nil s this

theorem foldl_append_eq_flatMap (f : α → List β) (l : List α) :
    ∀ acc : List β, l.foldl (fun a x => a ++ f x) acc = acc ++ l.flatMap f := by
  induction l with
  | nil => intro acc; simp
  | cons x xs ih =>
    intro acc
    simp only [List.foldl_cons, List.flatMap_cons, ih (acc ++ f x), List.append_assoc]

theorem strLexLe_total : ∀ a b : List Char, strLexLe a b = true ∨ strLexLe b a = true := by
  intro a
  induction a with
  | nil => intro b; left; rfl
  | cons x xs ih =>
    intro b
    cases b with
    | nil => right; rfl
    | cons y ys =>
      by_cases hxy : x.toNat < y.toNat
      · left; simp [strLexLe, hxy]
      · by_cases hyx : y.toNat < x.toNat
        · right; simp [strLexLe, hyx]
        · rcases ih ys with h | h
          · left; simp [strLexLe, hxy, hyx, h]
          · right; simp [strLexLe, hxy, hyx, h]

theorem strLexLe_trans : ∀ a b c : List Char,
    strLexLe a b = true → strLexLe b c = true → strLexLe a c = true := by
  intro a
  induction a with
  | nil => intro b c _ _; rfl
  | cons x xs ih =>
    intro b c hab hbc
    cases b with
    | nil => simp [strLexLe] at hab
    | cons y ys =>
      cases c with
      | nil => simp [strLexLe] at hbc
      | cons z zs =>
        simp only [strLexLe] at hab hbc ⊢
        by_cases hxy : x.toNat < y.toNat
        · by_cases hyz : y.toNat < z.toNat
          · simp [show x.toNat < z.toNat by omega]
          · by_cases hzy : z.toNat < y.toNat
            · simp only [hyz, if_false, hzy, if_true] at hbc
              exact absurd hbc (by simp)
            · simp [show x.toNat < z.toNat by omega]
        · by_cases hyx : y.toNat < x.toNat
          · simp [hxy, hyx] at hab
          · by_cases hyz : y.toNat < z.toNat
            · simp [show x.toNat < z.toNat by omega]
            · by_cases hzy : z.toNat < y.toNat
              · simp only [hyz, if_false, hzy, if_true] at hbc
                exact absurd hbc (by simp)
              · have hxz : ¬ x.toNat < z.toNat := by omega
                have hzx : ¬ z.toNat < x.toNat := by omega
                simp only [hxy, hyx, if_false] at hab
                simp only [hyz, hzy, if_false] at hbc
                simp only [hxz, hzx, if_false]
                exact ih ys zs hab hbc

theorem pyStrLe_total (a b : String) : pyStrLe a b = true ∨ pyStrLe b a = true :=
  strLexLe_total a.data b.data

theorem pyStrLe_trans (a b c : String) :
    pyStrLe a b = true → pyStrLe b c = true → pyStrLe a c = true :=
  strLexLe_trans a.data b.data c.data

theorem countLe_total (p q : String × Nat) :
    (q.2 ≤ p.2 : Bool) = true ∨ (p.2 ≤ q.2 : Bool) = true := by
  rcases Nat.le_total q.2 p.2 with h | h
  · left; exact decide_eq_true h
  · right; exact decide_eq_true h

theorem mlLe_total (a b : MLEntry) : mlLe a b = true ∨ mlLe b a = true := by
  unfold mlLe
  by_cases h1 : b.leaderCount < a.leaderCount
  · left; simp [h1]
  · by_cases h2 : a.leaderCount < b.leaderCount
    · right; simp [h2, show ¬ b.leaderCount < a.leaderCount from h1]
    · rcases Nat.le_total b.count a.count with h | h
      · left; simp [h1, h2, h]
      · right; simp [h1, h2, h]

theorem mlLe_trans (a b c : MLEntry) :
    mlLe a b = true → mlLe b c = true → mlLe a c = true := by
  unfold mlLe
  by_cases h1 : b.leaderCount < a.leaderCount <;>
    by_cases h2 : a.leaderCount < b.leaderCount <;>
    by_cases h3 : c.leaderCount < b.leaderCount <;>
    by_cases h4 : b.leaderCount < c.leaderCount <;>
    simp_all <;> omega

/-! ## Claim theorems -/

/-- Claim C9: when the copyright metadata table is empty — in
particular when the metadata file is missing, which `load_copyright_metadata`
turns into an empty table plus a printed warning instead of an
exception — `map_song_to_copyright` returns `none` for every song,
including songs whose Comparison Key matches the static override
table, so every song is reported as unmatched and no fatal error is
raised. -/
theorem empty_metadata_unmatched :
    ∀ song : String, map_song_to_copyright song [] = none := by
  intro song
  rfl

/-- Claim C7: `split_combined_songs` removes the `+ Communion` marker,
splits on `+`/`/` with surrounding whitespace, discards fragments that
are purely `[VC]<digits>` markers, strips trailing verse markers,
trailing chorus markers and a trailing lone `B`, drops empty results,
and maps empty input to the empty list; in particular the three
example tokenizations of the specification hold. -/
theorem split_combined_songs_spec :
    split_combined_songs "" = [] ∧
    split_combined_songs "Song1 V1 V2 + Song2" = ["Song1", "Song2"] ∧
    split_combined_songs "Song A + Communion" = ["Song A"] ∧
    split_combined_songs "V1 V2" = [] ∧
    split_combined_songs "Song1 / Song2" = ["Song1", "Song2"] ∧
    split_combined_songs "X C1 C2 + Y B" = ["X", "Y"] := by
  decide

/-- Claim C2 (counterexample): alias closure fails on the alias-table
key `房角石頭（Cornerstone）` — its full-width parentheses are folded to
half-width before the table lookup, so the lookup misses and
`clean_song_name` of the key differs from `clean_song_name` of its
canonical value. -/
theorem alias_closure_counterexample :
    ("房角石頭（Cornerstone）", "Cornerstone 房角基石") ∈ SONG_NAME_MAPPINGS ∧
    clean_song_name "房角石頭（Cornerstone）" ≠
      clean_song_name "Cornerstone 房角基石" := by
  decide

/-- Claim C2 (amended): for every key of `SONG_NAME_MAPPINGS` other
than the five keys of `aliasClosureExceptions`, `clean_song_name` of
the key equals `clean_song_name` of its mapped canonical value. -/
theorem alias_closure_amended :
    ∀ p ∈ SONG_NAME_MAPPINGS, p.1 ∉ aliasClosureExceptions →
      clean_song_name p.1 = clean_song_name p.2 := by
  decide

theorem alias_closure_amended_witness :
    ("Cornerstone", "Cornerstone 房角基石") ∈ SONG_NAME_MAPPINGS ∧
    "Cornerstone" ∉ aliasClosureExceptions ∧
    clean_song_name "Cornerstone" = clean_song_name "Cornerstone 房角基石" :=
  ⟨by decide, by decide,
   alias_closure_amended ("Cornerstone", "Cornerstone 房角基石")
     (by decide) (by decide)⟩

/-- Claim C3 (counterexample): idempotence fails on the alias-table
value `願你平安` — pronoun folding rewrites it to `願祢平安`, so
`clean_song_name` does not return it unchanged. -/
theorem clean_idempotent_counterexample :
    ("願您平安", "願你平安") ∈ SONG_NAME_MAPPINGS ∧
    clean_song_name "願你平安" ≠ some "願你平安" := by
  decide

/-- Claim C3 (amended): `clean_song_name` returns every value of
`SONG_NAME_MAPPINGS` unchanged, except the two values of
`idempotenceExceptions`, which the pipeline itself rewrites. -/
theorem clean_idempotent_amended :
    ∀ p ∈ SONG_NAME_MAPPINGS, p.2 ∉ idempotenceExceptions →
      clean_song_name p.2 = some p.2 := by
  decide

theorem clean_idempotent_amended_witness :
    ("Cornerstone", "Cornerstone 房角基石") ∈ SONG_NAME_MAPPINGS ∧
    "Cornerstone 房角基石" ∉ idempotenceExceptions ∧
    clean_song_name "Cornerstone 房角基石" = some "Cornerstone 房角基石" :=
  ⟨by decide, by decide,
   clean_idempotent_amended ("Cornerstone", "Cornerstone 房角基石")
     (by decide) (by decide)⟩

/-- Claim C1: `map_song_to_copyright` evaluates its tiers in strict
order with the first hit winning; in particular (first conjunct) a song
whose Comparison Key equals that of an entry of
`SONGS_WITHOUT_PUBLISHER` yields `none` for every metadata table, even
when the key also matches the static table or a metadata entry; and
(second conjunct) with nonempty metadata and no exclusion hit, a hit in
the static override table wins over every metadata entry, returning the
alias-resolved static publisher. -/
theorem copyright_tier_precedence :
    ∀ (song : String) (md : List (String × String)),
      (normalize_for_comparison song ∈
          SONGS_WITHOUT_PUBLISHER.map normalize_for_comparison →
        map_song_to_copyright song md = none) ∧
      (md ≠ [] →
        (∀ ex ∈ SONGS_WITHOUT_PUBLISHER,
          normalize_for_comparison ex ≠ normalize_for_comparison song) →
        ∀ q ∈ STATIC_SONG_COPYRIGHT_MAPPINGS,
          STATIC_SONG_COPYRIGHT_MAPPINGS.find?
              (fun p => normalize_for_comparison p.1 =
                normalize_for_comparison song) = some q →
          map_song_to_copyright song md =
            some (consolidate_publisher_name q.2)) := by
  intro song md
  constructor
  · intro hmem
    unfold map_song_to_copyright
    by_cases hmd : md = []
    · rw [if_pos hmd]
    · rw [if_neg hmd]
      have hany : (SONGS_WITHOUT_PUBLISHER.any
          fun ex => decide (normalize_for_comparison ex =
            normalize_for_comparison song)) = true := by
        rcases List.mem_map.mp hmem with ⟨ex, hex, heq⟩
        exact List.any_eq_true.mpr ⟨ex, hex, decide_eq_true heq⟩
      simp only [hany, if_true]
  · intro hmd hexcl q _ hfind
    unfold map_song_to_copyright
    rw [if_neg hmd]
    have hany : (SONGS_WITHOUT_PUBLISHER.any
        fun ex => decide (normalize_for_comparison ex =
          normalize_for_comparison song)) = false := by
      rw [List.any_eq_false]
      intro ex hex
      simpa using hexcl ex hex
    have hst : staticTier (normalize_for_comparison song) =
        some (consolidate_publisher_name q.2) := by
      rw [staticTier, hfind]
      rfl
    simp only [hany, Bool.false_eq_true, if_false, hst]

theorem copyright_tier_precedence_witness :
    map_song_to_copyright
      "Christmas2025（信眾齊到主前, 祢是彌賽亞, 祢配得, 君尊義僕, 好信息, 神同在, 榮美屬祢）"
      [("Christmas2025（信眾齊到主前, 祢是彌賽亞, 祢配得, 君尊義僕, 好信息, 神同在, 榮美屬祢）",
        "Some Publisher")] = none ∧
    map_song_to_copyright "小小的雙手" [("小小的雙手", "Another Publisher")] =
      some "Worship Nations" :=
  ⟨(copyright_tier_precedence _ _).1 (by decide),
   (copyright_tier_precedence "小小的雙手" [("小小的雙手", "Another Publisher")]).2
     (by decide) (by decide) ("小小的雙手", "玻璃海樂團") (by decide) (by decide)⟩

theorem mergeStep_foldl_none (cont : List String) (idxs : List Nat) :
    idxs.foldl (mergeStep cont) none = none := by
  induction idxs with
  | nil => rfl
  | cons i idxs ih =>
    rw [List.foldl_cons]
    exact ih

theorem mergeStep_some_length (cont row row' : List String) (i : Nat)
    (h : mergeStep cont (some row) i = some row') :
    row'.length = row.length := by
  simp only [mergeStep] at h
  split at h
  · injection h with h
    rw [← h]
  · split at h
    · split at h
      · exact absurd h (by simp)
      · injection h with h
        rw [← h, List.length_set]
    · injection h with h
      rw [← h]

theorem mergeStep_some_frame (cont row row' : List String) (i j : Nat)
    (h : mergeStep cont (some row) i = some row') (hij : i ≠ j) :
    row'[j]? = row[j]? := by
  simp only [mergeStep] at h
  split at h
  · injection h with h
    rw [← h]
  · split at h
    · split at h
      · exact absurd h (by simp)
      · injection h with h
        rw [← h, List.getElem?_set_ne hij]
    · injection h with h
      rw [← h]

theorem mergeFold_some_length (cont : List String) (idxs : List Nat) :
    ∀ row m : List String,
      idxs.foldl (mergeStep cont) (some row) = some m →
      m.length = row.length := by
  induction idxs with
  | nil =>
    intro row m h
    injection h with h
    rw [← h]
  | cons i idxs ih =>
    intro row m h
    rw [List.foldl_cons] at h
    cases hstep : mergeStep cont (some row) i with
    | none =>
      rw [hstep, mergeStep_foldl_none] at h
      exact absurd h (by simp)
    | some row' =>
      rw [hstep] at h
      rw [ih row' m h, mergeStep_some_length cont row row' i hstep]

theorem mergeFold_frame (cont : List String) (idxs : List Nat) :
    ∀ (row m : List String) (j : Nat),
      idxs.foldl (mergeStep cont) (some row) = some m → j ∉ idxs →
      m[j]? = row[j]? := by
  induction idxs with
  | nil =>
    intro row m j h _
    injection h with h
    rw [← h]
  | cons i idxs ih =>
    intro row m j h hj
    rw [List.foldl_cons] at h
    have hij : i ≠ j := fun he => hj (he ▸ List.mem_cons_self i idxs)
    have hj' : j ∉ idxs := fun hm => hj (List.mem_cons_of_mem i hm)
    cases hstep : mergeStep cont (some row) i with
    | none =>
      rw [hstep, mergeStep_foldl_none] at h
      exact absurd h (by simp)
    | some row' =>
      rw [hstep] at h
      rw [ih row' m j h hj', mergeStep_some_frame cont row row' i j hstep hij]

theorem mergeFold_rule (cont : List String) (idxs : List Nat) :
    ∀ row m : List String, idxs.Nodup →
      idxs.foldl (mergeStep cont) (some row) = some m →
      ∀ i ∈ idxs, ∀ cv cell : String,
        row[i]? = some cv → cont[i]? = some cell →
        m[i]? = some (if pyStrip cell ≠ "" then
            (if cv ≠ "" then cv ++ " " ++ pyStrip cell else pyStrip cell)
          else cv) := by
  induction idxs with
  | nil =>
    intro row m _ _ i hi
    cases hi
  | cons k idxs ih =>
    intro row m hnd h i hi cv cell hcv hcell
    rw [List.foldl_cons] at h
    rcases List.nodup_cons.mp hnd with ⟨hk, hnd2⟩
    cases hstep : mergeStep cont (some row) k with
    | none =>
      rw [hstep, mergeStep_foldl_none] at h
      exact absurd h (by simp)
    | some row' =>
      rw [hstep] at h
      rcases List.mem_cons.mp hi with rfl | hi2
      · have hframe : m[i]? = row'[i]? := mergeFold_frame cont idxs row' m i h hk
        simp only [mergeStep, hcell] at hstep
        by_cases hs : pyStrip cell ≠ ""
        · rw [if_pos hs] at hstep
          simp only [hcv, Option.some.injEq] at hstep
          have hlt : i < row.length := by
            rcases List.getElem?_eq_some.mp hcv with ⟨hlt, _⟩
            exact hlt
          rw [hframe, ← hstep, List.getElem?_set_self hlt, if_pos hs]
        · rw [if_neg hs] at hstep
          injection hstep with hstep
          rw [hframe, ← hstep, hcv, if_neg hs]
      · have hki : k ≠ i := fun he => hk (he ▸ hi2)
        have hrow2 : row'[i]? = row[i]? :=
          mergeStep_some_frame cont row row' k i hstep hki
        exact ih row' m hnd2 h i hi2 cv cell (hrow2.trans hcv) hcell

theorem mergeFold_err (cont : List String) (idxs : List Nat) :
    ∀ row : List String,
      (∃ i ∈ idxs, ∃ cell, cont[i]? = some cell ∧ pyStrip cell ≠ "" ∧
        row[i]? = none) →
      idxs.foldl (mergeStep cont) (some row) = none := by
  induction idxs with
  | nil =>
    rintro row ⟨i, hi, _⟩
    cases hi
  | cons k idxs ih =>
    rintro row ⟨i, hi, cell, hcell, hs, hnone⟩
    rw [List.foldl_cons]
    rcases List.mem_cons.mp hi with rfl | hi2
    · have hstep : mergeStep cont (some row) i = none := by
        simp only [mergeStep, hcell, if_pos hs, hnone]
      rw [hstep, mergeStep_foldl_none]
    · cases hstep : mergeStep cont (some row) k with
      | none => rw [mergeStep_foldl_none]
      | some row' =>
        apply ih row'
        refine ⟨i, hi2, cell, hcell, hs, ?_⟩
        have hlen := mergeStep_some_length cont row row' k hstep
        have hge : row.length ≤ i := by
          by_contra hlt
          push_neg at hlt
          rw [List.getElem?_eq_getElem hlt] at hnone
          exact absurd hnone (by simp)
        exact List.getElem?_eq_none (by omega)

theorem mergeFold_ok (cont : List String) (idxs : List Nat) :
    ∀ row : List String,
      (∀ i ∈ idxs, ∀ cell : String,
        cont[i]? = some cell → pyStrip cell ≠ "" → i < row.length) →
      ∃ m, idxs.foldl (mergeStep cont) (some row) = some m := by
  induction idxs with
  | nil =>
    intro row _
    exact ⟨row, rfl⟩
  | cons k idxs ih =>
    intro row hgood
    rw [List.foldl_cons]
    have hk : ∃ row', mergeStep cont (some row) k = some row' ∧
        row'.length = row.length := by
      cases hc : cont[k]? with
      | none =>
        refine ⟨row, ?_, rfl⟩
        simp only [mergeStep, hc]
      | some cell =>
        by_cases hs : pyStrip cell ≠ ""
        · have hlt : k < row.length :=
            hgood k (List.mem_cons_self k idxs) cell hc hs
          cases hr : row[k]? with
          | none =>
            rw [List.getElem?_eq_getElem hlt] at hr
            exact absurd hr (by simp)
          | some cv =>
            refine ⟨row.set k
              (if cv ≠ "" then cv ++ " " ++ pyStrip cell else pyStrip cell),
              ?_, List.length_set row k _⟩
            simp only [mergeStep, hc, hr]
            rw [if_pos hs]
        · refine ⟨row, ?_, rfl⟩
          simp only [mergeStep, hc]
          rw [if_neg hs]
    rcases hk with ⟨row', hstep, hlen⟩
    rw [hstep]
    apply ih row'
    intro i hi cell hc hs
    rw [hlen]
    exact hgood i (List.mem_cons_of_mem k hi) cell hc hs

theorem mem_merge_range (i L : Nat) (h1 : 1 ≤ i) (h2 : i < L) :
    i ∈ List.range' 1 (L - 1) := by
  rw [List.mem_range']
  exact ⟨i - 1, by omega, by omega⟩

theorem mergeCont_rule (cur cont m : List String) (i : Nat) (cv cell : String)
    (h1 : 1 ≤ i) (hcv : cur[i]? = some cv) (hcell : cont[i]? = some cell)
    (hm : mergeCont cur cont = some m) :
    m[i]? = some (if pyStrip cell ≠ "" then
        (if cv ≠ "" then cv ++ " " ++ pyStrip cell else pyStrip cell)
      else cv) := by
  have hiL : i < cont.length := by
    rcases List.getElem?_eq_some.mp hcell with ⟨hlt, _⟩
    exact hlt
  exact mergeFold_rule cont (List.range' 1 (cont.length - 1)) cur m
    (List.nodup_range' 1 (cont.length - 1)) hm i
    (mem_merge_range i cont.length h1 hiL) cv cell hcv hcell

theorem mergeCont_err (cur cont : List String) (i : Nat) (cell : String)
    (h1 : 1 ≤ i) (hcell : cont[i]? = some cell) (hs : pyStrip cell ≠ "")
    (hnone : cur[i]? = none) : mergeCont cur cont = none := by
  have hiL : i < cont.length := by
    rcases List.getElem?_eq_some.mp hcell with ⟨hlt, _⟩
    exact hlt
  exact mergeFold_err cont (List.range' 1 (cont.length - 1)) cur
    ⟨i, mem_merge_range i cont.length h1 hiL, cell, hcell, hs, hnone⟩

theorem mergeCont_ok (cur cont : List String)
    (h : ∀ (i : Nat) (cell : String), 1 ≤ i → cont[i]? = some cell →
      pyStrip cell ≠ "" → i < cur.length) :
    ∃ m, mergeCont cur cont = some m := by
  apply mergeFold_ok cont (List.range' 1 (cont.length - 1)) cur
  intro i hi cell hc hs
  have h1 : 1 ≤ i := by
    rw [List.mem_range'] at hi
    omega
  exact h i cell h1 hc hs

/-- Claim C8 (counterexample): the for-each-column merge rule fails at
a column index the current record lacks — a continuation row of 18
cells whose index-17 cell is non-blank, following a dated row padded to
17 cells, makes the source raise an uncaught `IndexError` reading
`current_row[17]` (modelled `none`): no merged record is produced at
all, instead of the cell being appended. -/
theorem consolidation_counterexample :
    mergeCont (padTo17 ["2025-01-04", "A"])
        (padTo17 (List.replicate 17 "" ++ ["x"])) = none ∧
    consolidate_multiline_rows
        [["2025-01-04", "A"], List.replicate 17 "" ++ ["x"]] = none := by
  decide

/-- Claim C8 (amended): `consolidate_multiline_rows` merges every
continuation row (blank first column) into the current dated record
for each column index ≥ 1 that the current record possesses — a
non-blank continuation cell is appended with a single separating space
when the current cell is non-empty, else becomes the value — while a
non-blank continuation cell at an index the current record lacks
raises an uncaught `IndexError` (modelled `none`, no output) and the
merge succeeds whenever no such cell exists; the trailing in-progress
record is emitted at end of input, and the two example rows
consolidate to a single row whose index-4 cell is `S1 S2`. -/
theorem consolidation_spec_amended :
    consolidate_multiline_rows
        [["2025-01-04", "A", "", "", "S1"], ["", "", "", "", "S2"]] =
      some [padTo17 ["2025-01-04", "A", "", "", "S1 S2"]] ∧
    (∀ d c : List String,
      pyStrip ((padTo17 d).getD 0 "") ≠ "" →
      pyStrip ((padTo17 c).getD 0 "") = "" →
      consolidate_multiline_rows [d, c] =
        (mergeCont (padTo17 d) (padTo17 c)).map (fun m => [m])) ∧
    (∀ (cur cont m : List String) (i : Nat) (cv cell : String),
      1 ≤ i → cur[i]? = some cv → cont[i]? = some cell →
      mergeCont cur cont = some m →
      m[i]? = some (if pyStrip cell ≠ "" then
          (if cv ≠ "" then cv ++ " " ++ pyStrip cell else pyStrip cell)
        else cv)) ∧
    (∀ (cur cont : List String) (i : Nat) (cell : String),
      1 ≤ i → cont[i]? = some cell → pyStrip cell ≠ "" → cur[i]? = none →
      mergeCont cur cont = none) ∧
    (∀ cur cont : List String,
      (∀ (i : Nat) (cell : String), 1 ≤ i → cont[i]? = some cell →
        pyStrip cell ≠ "" → i < cur.length) →
      ∃ m, mergeCont cur cont = some m) := by
  refine ⟨by decide, ?_, ?_, ?_, ?_⟩
  · intro d c h1 h2
    simp only [consolidate_multiline_rows, consolidateAux]
    rw [if_pos h1,
      if_neg (by simp only [ne_eq, h2, not_true_eq_false, not_false_eq_true])]
    cases hm : mergeCont (padTo17 d) (padTo17 c) with
    | none => rfl
    | some merged => rfl
  · intro cur cont m i cv cell h1 hcv hcell hm
    exact mergeCont_rule cur cont m i cv cell h1 hcv hcell hm
  · intro cur cont i cell h1 hcell hs hnone
    exact mergeCont_err cur cont i cell h1 hcell hs hnone
  · intro cur cont h
    exact mergeCont_ok cur cont h

theorem consolidation_spec_amended_witness :
    consolidate_multiline_rows [["2025-01-04", "B"], ["", "x"]] =
      (mergeCont (padTo17 ["2025-01-04", "B"]) (padTo17 ["", "x"])).map
        (fun m => [m]) ∧
    (["d", "a b"] : List String)[1]? = some "a b" ∧
    mergeCont ["d"] ["", "x"] = none ∧
    ∃ m, mergeCont ["d", "a"] ["", "b"] = some m :=
  ⟨consolidation_spec_amended.2.1 ["2025-01-04", "B"] ["", "x"]
     (by decide) (by decide),
   consolidation_spec_amended.2.2.1 ["d", "a"] ["", "b"] ["d", "a b"] 1 "a" "b"
     (by decide) (by decide) (by decide) (by decide),
   consolidation_spec_amended.2.2.2.1 ["d"] ["", "x"] 1 "x"
     (by decide) (by decide) (by decide) (by decide),
   consolidation_spec_amended.2.2.2.2 ["d", "a"] ["", "b"]
     (by
       intro i cell h1 hc _
       rcases List.getElem?_eq_some.mp hc with ⟨hlt, _⟩
       simp only [List.length_cons, List.length_nil] at hlt ⊢
       omega)⟩

theorem padTo17_min_length (row : List String) : 17 ≤ (padTo17 row).length := by
  simp only [padTo17, List.length_append, List.length_replicate]
  omega

theorem mergeCont_length (cur cont m : List String)
    (h : mergeCont cur cont = some m) : m.length = cur.length :=
  mergeFold_some_length cont (List.range' 1 (cont.length - 1)) cur m h

theorem consolidateAux_min_width :
    ∀ (l : List (List String)) (cur : Option (List String)),
      (∀ c, cur = some c → 17 ≤ c.length) →
      ∀ out, consolidateAux cur l = some out →
      ∀ r ∈ out, 17 ≤ r.length := by
  intro l
  induction l with
  | nil =>
    intro cur hcur out hout r hr
    cases cur with
    | some c =>
      simp only [consolidateAux] at hout
      injection hout with hout
      rw [← hout] at hr
      rw [List.mem_singleton] at hr
      exact hr ▸ hcur c rfl
    | none =>
      simp only [consolidateAux] at hout
      injection hout with hout
      rw [← hout] at hr
      cases hr
  | cons row rest ih =>
    intro cur hcur out hout r hr
    cases cur with
    | some c =>
      simp only [consolidateAux] at hout
      by_cases h : pyStrip ((padTo17 row).getD 0 "") ≠ ""
      · rw [if_pos h] at hout
        rcases Option.map_eq_some'.mp hout with ⟨out2, hout2, rfl⟩
        rcases List.mem_cons.mp hr with rfl | hr2
        · exact hcur r rfl
        · refine ih (some (padTo17 row)) ?_ out2 hout2 r hr2
          intro c' hc'
          cases hc'
          exact padTo17_min_length row
      · rw [if_neg h] at hout
        cases hm : mergeCont c (padTo17 row) with
        | none =>
          rw [hm] at hout
          exact absurd hout (by simp)
        | some merged =>
          rw [hm] at hout
          refine ih (some merged) ?_ out hout r hr
          intro c' hc'
          cases hc'
          rw [mergeCont_length c (padTo17 row) merged hm]
          exact hcur c rfl
    | none =>
      simp only [consolidateAux] at hout
      by_cases h : pyStrip ((padTo17 row).getD 0 "") ≠ ""
      · rw [if_pos h] at hout
        refine ih (some (padTo17 row)) ?_ out hout r hr
        intro c' hc'
        cases hc'
        exact padTo17_min_length row
      · rw [if_neg h] at hout
        exact ih none (by intro c hc; cases hc) out hout r hr

/-- Claim C10: every row returned by `consolidate_multiline_rows` has
at least 17 cells (each input row is padded to 17 columns before
processing and merging preserves length; inputs on which the source
raises return nothing at all), so the too-few-columns skip of
`load_csv_data` (`len(row) < 16`) can never fire on consolidated
rows. -/
theorem consolidated_rows_min_width :
    ∀ (rows out : List (List String)) (r : List String),
      consolidate_multiline_rows rows = some out → r ∈ out →
        17 ≤ r.length ∧ ¬(r.length < 16) := by
  intro rows out r hout hr
  have h17 : 17 ≤ r.length :=
    consolidateAux_min_width rows none (by intro c hc; cases hc) out hout r hr
  exact ⟨h17, by omega⟩

theorem consolidated_rows_min_width_witness :
    17 ≤ (padTo17 ["2025-01-04"]).length ∧
    ¬((padTo17 ["2025-01-04"]).length < 16) :=
  consolidated_rows_min_width [["2025-01-04"]] [padTo17 ["2025-01-04"]]
    (padTo17 ["2025-01-04"]) (by decide) (by decide)

/-! ## Stream and counter membership lemmas for the statistics engine -/

theorem mostCommon_count (n : Nat) (l : List String) (p : String × Nat)
    (hp : p ∈ mostCommon n l) : p.2 = countOcc l p.1 := by
  have h1 : p ∈ sortBy (fun p q => (q.2 ≤ p.2 : Bool)) (counterOf l) :=
    List.take_subset n _ hp
  have h2 : p ∈ counterOf l := (mem_sortBy _ _ p).mp h1
  exact (counterOf_count l p h2).1

theorem leaderStream_eq (f : Service → List String) (services : List Service)
    (year : Nat) (leader : String) :
    leaderStream f services year leader =
      (leaderServices services year leader).flatMap f := by
  rw [leaderStream, foldl_append_eq_flatMap]
  rfl

theorem globalStream_eq (f : Service → List String) (services : List Service)
    (year : Nat) :
    globalStream f services year = (yearServices services year).flatMap f := by
  rw [globalStream, foldl_append_eq_flatMap]
  rfl

theorem mem_leaderStream (f : Service → List String) (services : List Service)
    (year : Nat) (leader : String) (s : String) :
    s ∈ leaderStream f services year leader ↔
      ∃ svc ∈ services, svc.year = year ∧ svc.praise_leader = leader ∧
        s ∈ f svc := by
  rw [leaderStream_eq, List.mem_flatMap]
  constructor
  · rintro ⟨svc, hsvc, hs⟩
    rcases List.mem_filter.mp hsvc with ⟨hy, hleader⟩
    rcases List.mem_filter.mp hy with ⟨hmem, hyear⟩
    exact ⟨svc, hmem, of_decide_eq_true hyear, of_decide_eq_true hleader, hs⟩
  · rintro ⟨svc, hmem, hyear, hleader, hs⟩
    exact ⟨svc,
      List.mem_filter.mpr
        ⟨List.mem_filter.mpr ⟨hmem, decide_eq_true hyear⟩,
         decide_eq_true hleader⟩, hs⟩

theorem mem_mlStream (services : List Service) (year : Nat) (p : String × String) :
    p ∈ mlStream services year ↔
      ∃ svc ∈ services, svc.year = year ∧ svc.praise_leader = p.2 ∧
        p.1 ∈ svc.praiseSongs := by
  have heq : mlStream services year =
      (yearServices services year).flatMap
        (fun svc => (svc.praiseSongs).map (fun song => (song, svc.praise_leader))) := by
    rw [mlStream, foldl_append_eq_flatMap]
    rfl
  rw [heq, List.mem_flatMap]
  constructor
  · rintro ⟨svc, hsvc, hp⟩
    rcases List.mem_filter.mp hsvc with ⟨hmem, hyear⟩
    rcases List.mem_map.mp hp with ⟨s2, hs2, rfl⟩
    exact ⟨svc, hmem, of_decide_eq_true hyear, rfl, hs2⟩
  · rintro ⟨svc, hmem, hyear, hleader, hs⟩
    refine ⟨svc, List.mem_filter.mpr ⟨hmem, decide_eq_true hyear⟩, ?_⟩
    refine List.mem_map.mpr ⟨p.1, hs, ?_⟩
    rw [hleader]

theorem mem_songLeaders (services : List Service) (year : Nat) (song : String)
    (l : String) :
    l ∈ songLeaders services year song ↔
      ∃ svc ∈ services, svc.year = year ∧ svc.praise_leader = l ∧
        song ∈ svc.praiseSongs := by
  rw [songLeaders, mem_uniqFirst]
  constructor
  · intro h
    rcases List.mem_map.mp h with ⟨p, hp, rfl⟩
    rcases List.mem_filter.mp hp with ⟨hml, hfst⟩
    rcases (mem_mlStream services year p).mp hml with ⟨svc, hmem, hyear, hl, hs⟩
    exact ⟨svc, hmem, hyear, hl, (of_decide_eq_true hfst) ▸ hs⟩
  · rintro ⟨svc, hmem, hyear, hl, hs⟩
    refine List.mem_map.mpr ⟨(song, l), ?_, rfl⟩
    refine List.mem_filter.mpr ⟨?_, by simp⟩
    exact (mem_mlStream services year (song, l)).mpr ⟨svc, hmem, hyear, hl, hs⟩

/-! ## Remaining claim theorems -/

/-- Claim C4 (amended): for every leader and category, a song with
occurrence count exactly 1 for that leader never appears in the
per-leader Top-20 of that category (the `count > 1` filter); at the
global level no such filter is applied, so any sung song — singletons
and songs sung twice included — appears in the global Top-20 whenever
the category has at most 20 distinct songs (with more than 20 distinct
songs, `most_common(20)` truncation can still exclude it). -/
theorem top20_floor_amended :
    ∀ (f : Service → List String) (services : List Service) (year : Nat)
      (leader : String) (song : String),
      (countOcc (leaderStream f services year leader) song = 1 →
        song ∉ (leaderTop20 f services year leader).map Prod.fst) ∧
      (song ∈ globalStream f services year →
        (uniqFirst (globalStream f services year)).length ≤ 20 →
        song ∈ (globalTop20 f services year).map Prod.fst) := by
  intro f services year leader song
  constructor
  · intro hcnt hmem
    rcases List.mem_map.mp hmem with ⟨p, hp, rfl⟩
    rcases List.mem_filter.mp hp with ⟨hpm, hgt⟩
    have h1 : 1 < p.2 := of_decide_eq_true hgt
    have h2 : p.2 = countOcc (leaderStream f services year leader) p.1 :=
      mostCommon_count 20 _ p hpm
    rw [h2, hcnt] at h1
    exact absurd h1 (by omega)
  · intro hmem hlen
    have hu : song ∈ uniqFirst (globalStream f services year) :=
      (mem_uniqFirst _ _).mpr hmem
    have hc : (song, countOcc (globalStream f services year) song) ∈
        counterOf (globalStream f services year) :=
      List.mem_map_of_mem _ hu
    have hs : (song, countOcc (globalStream f services year) song) ∈
        sortBy (fun p q => (q.2 ≤ p.2 : Bool)) (counterOf (globalStream f services year)) :=
      (mem_sortBy _ _ _).mpr hc
    have hlen2 : (sortBy (fun p q => (q.2 ≤ p.2 : Bool))
        (counterOf (globalStream f services year))).length ≤ 20 := by
      rw [length_sortBy, counterOf, List.length_map]
      exact hlen
    have htake : (sortBy (fun p q => (q.2 ≤ p.2 : Bool))
        (counterOf (globalStream f services year))).take 20 =
        sortBy (fun p q => (q.2 ≤ p.2 : Bool))
          (counterOf (globalStream f services year)) :=
      List.take_of_length_le hlen2
    refine List.mem_map.mpr
      ⟨(song, countOcc (globalStream f services year) song), ?_, rfl⟩
    rw [globalTop20, mostCommon, htake]
    exact hs

/-- Claim C4 (counterexample): the song `t` is sung twice globally in
2025, yet it appears neither in the global praise1 Top-20 nor in the
global combined Top-20, because twenty other songs outrank it and
`most_common(20)` truncates — so "a song sung twice globally appears in
the global Top-20" fails as stated. -/
theorem top20_floor_counterexample :
    countOcc (globalStream Service.praise1 [c4cxSvc] 2025) "t" = 2 ∧
    "t" ∉ (globalTop20 Service.praise1 [c4cxSvc] 2025).map Prod.fst ∧
    "t" ∉ (globalTop20 Service.praiseSongs [c4cxSvc] 2025).map Prod.fst := by
  decide

theorem top20_floor_amended_witness :
    countOcc (leaderStream Service.praise1
      [{ year := 2025, praise_leader := "L", praise1 := ["solo"],
         praise2 := [], peace := [] }] 2025 "L") "solo" = 1 ∧
    "solo" ∉ (leaderTop20 Service.praise1
      [{ year := 2025, praise_leader := "L", praise1 := ["solo"],
         praise2 := [], peace := [] }] 2025 "L").map Prod.fst ∧
    "t" ∈ (globalTop20 Service.praise1
      [{ year := 2025, praise_leader := "L", praise1 := ["t"],
         praise2 := [], peace := [] },
       { year := 2025, praise_leader := "M", praise1 := ["t"],
         praise2 := [], peace := [] }] 2025).map Prod.fst :=
  ⟨by decide,
   (top20_floor_amended Service.praise1
     [{ year := 2025, praise_leader := "L", praise1 := ["solo"],
        praise2 := [], peace := [] }] 2025 "L" "solo").1 (by decide),
   (top20_floor_amended Service.praise1
     [{ year := 2025, praise_leader := "L", praise1 := ["t"],
        praise2 := [], peace := [] },
      { year := 2025, praise_leader := "M", praise1 := ["t"],
        praise2 := [], peace := [] }] 2025 "L" "t").2 (by decide) (by decide)⟩

/-- Claim C5: a non-peace song chosen by exactly 2 distinct leaders
never appears in the multi-leader Top-10; a song chosen by at least 3
distinct leaders yields an entry of the multi-leader list carrying the
song, the true distinct-leader count, the sorted leader list and the
total praise1/praise2 occurrence count; `songLeaders` is
duplicate-free and characterizes exactly the leaders who chose the
song in a praise1/praise2 slot of a report-year service; and the
Top-10 is sorted by leader count descending then occurrence count
descending, with at most 10 entries. -/
theorem multi_leader_threshold :
    ∀ (services : List Service) (year : Nat) (song : String),
      ((songLeaders services year song).length = 2 →
        song ∉ (top10_multi_leader services year).map MLEntry.song) ∧
      (3 ≤ (songLeaders services year song).length →
        ({ song := song
           leaderCount := (songLeaders services year song).length
           leaders := sortBy pyStrLe (songLeaders services year song)
           count := countOcc (globalStream Service.praiseSongs services year) song }
          : MLEntry) ∈ multiLeaderSongs services year) ∧
      (songLeaders services year song).Nodup ∧
      (∀ l, l ∈ songLeaders services year song ↔
        ∃ svc ∈ services, svc.year = year ∧ svc.praise_leader = l ∧
          song ∈ svc.praiseSongs) ∧
      List.Pairwise (fun a b => mlLe a b = true)
        (top10_multi_leader services year) ∧
      (top10_multi_leader services year).length ≤ 10 := by
  intro services year song
  refine ⟨?_, ?_, nodup_uniqFirst _, mem_songLeaders services year song, ?_, ?_⟩
  · intro hlen2 hmem
    rcases List.mem_map.mp hmem with ⟨e, he, hesong⟩
    have he2 : e ∈ sortBy mlLe (multiLeaderSongs services year) :=
      List.take_subset 10 _ he
    have he3 : e ∈ multiLeaderSongs services year :=
      (mem_sortBy _ _ _).mp he2
    rcases List.mem_map.mp he3 with ⟨s, hs, hse⟩
    rcases List.mem_filter.mp hs with ⟨_, hs3⟩
    have hss : s = song := by rw [← hesong, ← hse]
    have h3 : 3 ≤ (songLeaders services year song).length := by
      rw [← hss]
      exact of_decide_eq_true hs3
    omega
  · intro h3
    have hpos : 0 < (songLeaders services year song).length := by omega
    rcases List.exists_mem_of_length_pos hpos with ⟨l, hl⟩
    rw [songLeaders, mem_uniqFirst] at hl
    rcases List.mem_map.mp hl with ⟨p, hp, _⟩
    rcases List.mem_filter.mp hp with ⟨hml, hfst⟩
    have hsong : song ∈ (mlStream services year).map Prod.fst := by
      refine List.mem_map.mpr ⟨p, hml, of_decide_eq_true hfst⟩
    refine List.mem_map.mpr ⟨song, ?_, rfl⟩
    refine List.mem_filter.mpr ⟨(mem_uniqFirst _ _).mpr hsong, decide_eq_true h3⟩
  · exact List.Pairwise.sublist (List.take_sublist 10 _)
      (pairwise_sortBy mlLe mlLe_total mlLe_trans _)
  · exact List.length_take_le 10 _

theorem multi_leader_threshold_witness :
    (songLeaders c5Services 2025 "X").length = 2 ∧
    "X" ∉ (top10_multi_leader c5Services 2025).map MLEntry.song ∧
    ({ song := "Y", leaderCount := 3, leaders := ["A", "B", "C"], count := 3 }
      : MLEntry) ∈ multiLeaderSongs c5Services 2025 :=
  ⟨by decide,
   (multi_leader_threshold c5Services 2025 "X").1 (by decide),
   (multi_leader_threshold c5Services 2025 "Y").2.1 (by decide)⟩

/-- Claim C6: for every leader, `new_songs_2025` is sorted
lexicographically (code-point order, Python `sorted`), duplicate-free,
and contains exactly the songs of the leader's report-year services
whose Comparison Key is absent from the historical baseline; in
particular, with a baseline holding the Comparison Key of
`Cornerstone 房角基石` but not of `Brand New Song 2025`, a leader who
sang both gets only `Brand New Song 2025`. -/
theorem new_song_detection :
    ∀ (services : List Service) (historical : List String) (year : Nat)
      (leader : String),
      List.Pairwise (fun a b => pyStrLe a b = true)
        (new_songs_2025 services historical year leader) ∧
      (new_songs_2025 services historical year leader).Nodup ∧
      (∀ s, s ∈ new_songs_2025 services historical year leader ↔
        ((∃ svc ∈ services, svc.year = year ∧ svc.praise_leader = leader ∧
           s ∈ svc.all_songs) ∧
         normalize_for_comparison s ∉ historical)) ∧
      new_songs_2025
          [{ year := 2025, praise_leader := "John",
             praise1 := ["Cornerstone 房角基石", "Brand New Song 2025"],
             praise2 := [], peace := [] }]
          [normalize_for_comparison "Cornerstone 房角基石"] 2025 "John" =
        ["Brand New Song 2025"] := by
  intro services historical year leader
  refine ⟨?_, ?_, ?_, by decide⟩
  · exact pairwise_sortBy pyStrLe pyStrLe_total pyStrLe_trans _
  · rw [new_songs_2025, (sortBy_perm _ _).nodup_iff]
    exact (nodup_uniqFirst _).filter _
  · intro s
    rw [new_songs_2025, mem_sortBy, List.mem_filter, mem_uniqFirst,
      mem_leaderStream]
    constructor
    · rintro ⟨hmem, hfilt⟩
      refine ⟨hmem, ?_⟩
      intro hin
      rw [Bool.not_eq_true', ← Bool.not_eq_true] at hfilt
      exact hfilt (List.elem_iff.mpr hin)
    · rintro ⟨hmem, hnot⟩
      refine ⟨hmem, ?_⟩
      rw [Bool.not_eq_true', ← Bool.not_eq_true]
      intro hc
      exact hnot (List.elem_iff.mp hc)
